import Mathlib

/-!
Verification of the arrival-plan generator of `vouchers.py` (class `Voucher`).

Dates are modelled as proleptic day ordinals (`Int`), so `timedelta(days=k)`
becomes `+ k` and `date.weekday()` becomes `(d - 1) % 7` (ordinal 1 is a
Monday).  Python integers are `Int`; `math.floor(a / b)` on integers is
`Int.fdiv`.  `datetimerange.DateTimeRange.is_intersection` on closed date
ranges `[a, b]`, `[c, d]` is `max a c ≤ min b d` (touching endpoints count).
-/

namespace Vouchers

/-- One row appended by `Voucher.get_arrival`
(`[arrival_number, arrival_day + 1, arrival_start_date, arrival_end_date,
   tours_per_day, rest_beds, bed_capacity, skip_days_after,
   voucher_number_from, voucher_number_to]`). -/
structure ArrivalRecord where
  arrival_number : Int
  arrival_day_number : Nat
  arrival_date : Int
  departure_date : Int
  vouchers_count : Int
  rest_beds : Int
  bed_capacity : Int
  skip_days_after : Int
  voucher_number_from : Int
  voucher_number_to : Int
deriving Repr, DecidableEq

/-- The fields of a `Voucher` instance used by `get_arrival`
(`type`, `bed_capacity`, `stay_days`, `arrival_days`, `period`,
`stop_period`, `reducing_period`, `reduce_beds`, `sanitary_days`,
`days_between_arrival`, `non_arrivals_days`). -/
structure Config where
  type : Int
  bed_capacity : Int
  stay_days : Int
  arrival_days : Nat
  period : Int × Int
  stop_period : Option (Int × Int)
  reducing_period : Option (Int × Int)
  reduce_beds : Int
  sanitary_days : Int
  days_between_arrival : Int
  non_arrivals_days : List Int
deriving Repr, DecidableEq

/-- `date.weekday()` for a proleptic ordinal: ordinal 1 (0001-01-01) is Monday (0). -/
def weekday (d : Int) : Int := (d - 1) % 7

/-- `DateTimeRange(r.1, r.2).is_intersection(DateTimeRange(s.1, s.2))`:
closed ranges intersect iff `max start ≤ min end` (inclusive endpoints). -/
def is_intersection (r s : Int × Int) : Bool :=
  decide (max r.1 s.1 ≤ min r.2 s.2)

/-- `Voucher.tours_per_day`: `floor(bed_capacity / arrival_days)` for plan
type 0 (arrival-based), `floor(bed_capacity / stay_days)` for type 1
(daily-based).  The Python property returns `None` for any other type; the
validator only admits types 0 and 1, so the `else`-branch collapses to the
type-1 formula here and every theorem that depends on it assumes
`type = 0 ∨ type = 1`. -/
def tours_per_day (c : Config) : Int :=
  if c.type = 0 then Int.fdiv c.bed_capacity c.arrival_days
  else Int.fdiv c.bed_capacity c.stay_days

/-- `Voucher.reduce_tours_per_day`:
`tours_per_day - floor(reduce_beds / arrival_days)`. -/
def reduce_tours_per_day (c : Config) : Int :=
  tours_per_day c - Int.fdiv c.reduce_beds c.arrival_days

/-- `prev_arrival_end_dates` in `get_arrival`: it is initialised to `[]`
and the only line populating it (`[x[3] for x in prev_arrival]`) is
commented out in the source, so it is the empty list for every input. -/
def prev_arrival_end_dates (_prev : List ArrivalRecord) : List Int := []

/-- The `while arrival_day < self.arrival_days` loop of `Voucher.get_arrival`,
with the loop-local mutable variables passed explicitly and the iteration
count bounded by `fuel` (the caller passes enough fuel for the loop's own
break condition `arrival_end_date > end_date` to fire first).
`good_day` is initialised to `True` in the source and the only code writing
it (the preventive-day block) is commented out, so its conjunct is dropped. -/
def get_arrival_loop (c : Config) (prev : List ArrivalRecord) (arrival_number : Int)
    (start_date end_date : Int) :
    Nat → Nat → Int → Int → Int → Int → Int → Int → List ArrivalRecord →
      List ArrivalRecord
  | 0, _, _, _, _, _, _, _, acc => acc
  | fuel + 1, arrival_day, day_iterate, rest_beds, tpd, cap, vnf, vnt, acc =>
    if arrival_day < c.arrival_days then
      -- начальная дата — заселение / конечная дата — выселение
      let arrival_start_date := start_date + day_iterate
      let arrival_end_date := arrival_start_date + (c.stay_days - 1)
      if (match c.stop_period with
          | some sp => is_intersection (arrival_start_date, arrival_end_date) sp
          | none => false) then acc
      else
        -- вычитаем съехавших из санатория (prev_arrival_end_dates is always [])
        let rest_beds :=
          if prev ≠ [] ∧ arrival_start_date ∈ prev_arrival_end_dates prev then
            match prev.get? arrival_day with
            | some r => rest_beds - r.vouchers_count
            | none => rest_beds
          else rest_beds
        if arrival_end_date > end_date then acc
        else
          let redHit := (match c.reducing_period with
            | some rp => is_intersection (arrival_start_date, arrival_end_date) rp
            | none => false)
          let tpd := if redHit then reduce_tours_per_day c else tpd
          let cap := if redHit then c.bed_capacity - c.reduce_beds else cap
          let vnt := if redHit then vnf + reduce_tours_per_day c else vnt
          if weekday arrival_start_date ∉ c.non_arrivals_days ∧
              rest_beds + tpd ≤ cap then
            -- добавим поселенцев в санаторий
            let rest_beds := rest_beds + tpd
            -- пересчитаем новые номера путёвок с учётом прошедшего заселения
            let vnf := if 0 < arrival_day then vnf + tpd + 1 else vnf
            let vnt := if 0 < arrival_day then vnf + tpd else vnt
            -- добьём кол-во путёвок по остаточным свободным местам
            let odd := if arrival_day + 1 = c.arrival_days ∧ rest_beds < cap then
              cap - rest_beds else 0
            let tpd := tpd + odd
            let rest_beds := rest_beds + odd
            let skip_days_after : Int :=
              if arrival_day + 1 = c.arrival_days then c.sanitary_days else 0
            let record : ArrivalRecord :=
              ⟨arrival_number, arrival_day + 1, arrival_start_date,
               arrival_end_date, tpd, rest_beds, cap, skip_days_after, vnf, vnt⟩
            get_arrival_loop c prev arrival_number start_date end_date fuel
              (arrival_day + 1) (day_iterate + 1) rest_beds tpd cap vnf vnt
              (acc ++ [record])
          else
            get_arrival_loop c prev arrival_number start_date end_date fuel
              arrival_day (day_iterate + 1) rest_beds tpd cap vnf vnt acc
    else acc

/-- `Voucher.get_arrival(prev_arrival, voucher_number_from)`.

The pre-loop section: `rest_beds = 0`; `arrival_number` continues from the
last prior record; with a non-empty history the start date resumes after the
prior cycle's stay plus its sanitary gap and the voucher numbering continues
from the prior cycle's last `voucher_number_to + 1`; if the sanatorium was
stopped and the previous cycle was cut short, the start date re-anchors to
the day after the stop period and the history is dropped.  The loop fuel
`(end_date - start_date + 2).toNat` exceeds the largest `day_iterate` the
loop can reach before its `arrival_end_date > end_date` break fires (for
`stay_days ≥ 1`), so the fuel bound is never the terminating event. -/
def get_arrival (c : Config) (prev_arrival : List ArrivalRecord)
    (voucher_number_from : Int) : List ArrivalRecord :=
  let arrival_number : Int :=
    match prev_arrival.getLast? with
    | some r => r.arrival_number + 1
    | none => 1
  let end_date := c.period.2
  let sv : Int × Int × List ArrivalRecord :=
    match prev_arrival.getLast? with
    | none => (c.period.1, voucher_number_from, prev_arrival)
    | some r =>
      let start_date := r.departure_date + (r.skip_days_after + 1)
      let vnf := r.voucher_number_to + 1
      match c.stop_period with
      | some sp =>
        if start_date < sp.2 ∧ prev_arrival.length < c.arrival_days then
          (sp.2 + 1, vnf, ([] : List ArrivalRecord))
        else (start_date, vnf, prev_arrival)
      | none => (start_date, vnf, prev_arrival)
  let start_date := sv.1
  let vnf := sv.2.1
  let prev := sv.2.2
  get_arrival_loop c prev arrival_number start_date end_date
    (end_date - start_date + 2).toNat 0 0 0
    (tours_per_day c) c.bed_capacity vnf (vnf + tours_per_day c) []

/-- The accumulation loop of `Voucher.response_body` / `Voucher.dataframe`:
`data = self.get_arrival(data, voucher_number_from)` repeated until `data`
is empty, with every produced row collected in order.  Each call receives
the immediately preceding cycle as history; `fuel` bounds the number of
calls. -/
def generate_loop (c : Config) (voucher_number_from : Int) :
    Nat → List ArrivalRecord → List ArrivalRecord → List ArrivalRecord
  | 0, _, rows => rows
  | fuel + 1, data, rows =>
    let data2 := get_arrival c data voucher_number_from
    if data2 = [] then rows
    else generate_loop c voucher_number_from fuel data2 (rows ++ data2)

/-- The full generated sequence: all records of all generation calls,
in generation order, starting from an empty history. -/
def generate_all (c : Config) (voucher_number_from : Int) (fuel : Nat) :
    List ArrivalRecord :=
  generate_loop c voucher_number_from fuel [] []

/-- The exception types of `exceptions.py`. -/
inductive VoucherError where
  | intMoreZero
  | intBetween
  | dateRange
  | dateRangeBetween
  | tuple
  | list
  | required
deriving Repr, DecidableEq

/-- The `arrival_days` property setter: `if value:` runs
`__validate_arrival_days` (which raises `VoucherIntBetween` unless
`stay_days >= value > 0`), after which `value` is stored; a falsy value
(`0`) skips validation and is stored directly. -/
def set_arrival_days (stay_days : Int) (value : Int) : Except VoucherError Int :=
  if value ≠ 0 then
    if 0 < value ∧ value ≤ stay_days then Except.ok value
    else Except.error VoucherError.intBetween
  else Except.ok value

/-- The configuration invariants of the spec's data model (§3), matching
what `Voucher.__validate__` and the property setters enforce on a fully
initialised instance: plan type 0 or 1, positive capacity and stay length,
`0 < arrival_days ≤ stay_days`, an ordered period, stop and reduction
periods (when present) ordered and contained in the period, a positive
reduced bed count when a reduction period is present, non-negative sanitary
and spacing days, and fewer than seven forbidden weekdays. -/
def validConfig (c : Config) : Bool :=
  (c.type == 0 || c.type == 1) &&
  (0 < c.bed_capacity) &&
  (0 < c.stay_days) &&
  (0 < c.arrival_days) && ((c.arrival_days : Int) ≤ c.stay_days) &&
  (c.period.1 ≤ c.period.2) &&
  (match c.stop_period with
   | none => true
   | some sp => c.period.1 ≤ sp.1 && sp.1 ≤ sp.2 && sp.2 ≤ c.period.2) &&
  (match c.reducing_period with
   | none => true
   | some rp => (c.period.1 ≤ rp.1 && rp.1 ≤ rp.2 && rp.2 ≤ c.period.2) &&
       (0 < c.reduce_beds)) &&
  (0 ≤ c.reduce_beds) &&
  (0 ≤ c.sanitary_days) &&
  (0 ≤ c.days_between_arrival) &&
  (c.non_arrivals_days.length < 7)

/-- The history shape the accumulation loop maintains across generation
calls: either no prior cycle, or the resume date derived from the last
prior record does not precede the period start. -/
def prevOk (c : Config) (prev : List ArrivalRecord) : Prop :=
  prev = [] ∨
    ∀ r ∈ prev.getLast?, c.period.1 ≤ r.departure_date + (r.skip_days_after + 1)

/-- Scenario A of the spec: `bed_capacity = 300`, `stay_days = 14`,
`arrival_days = 5`, period Jan 1 – Apr 9 as day ordinals (1 – 99 in a
non-leap year), arrival-based plan, no closure, no reduction, no forbidden
weekdays. -/
def scenarioA : Config := ⟨0, 300, 14, 5, (1, 99), none, none, 0, 0, 0, []⟩

/-- Scenario A with a one-day reduction period on day 15 (`reduce_beds = 50`):
day 1's stay interval [1, 14] misses it, day 2's [2, 15] hits it, so
`tours_per_day` drops from 60 to 50 between the first two records. -/
def reductionOverlapConfig : Config :=
  ⟨0, 300, 14, 5, (1, 99), none, some (15, 15), 50, 0, 0, []⟩

/-- A configuration whose fifth candidate day's stay interval [5, 6] lies
beyond the reduction period [3, 4] hit by days 2–4
(`bed_capacity = 11`, `stay_days = 2`, `arrival_days = 5`, `reduce_beds = 1`). -/
def stickyReductionConfig : Config :=
  ⟨0, 11, 2, 5, (1, 60), none, some (3, 4), 1, 0, 0, []⟩

/-- A configuration used with an explicit prior history
(`bed_capacity = 100`, `stay_days = 4`, `arrival_days = 2`). -/
def historyDemoConfig : Config := ⟨0, 100, 4, 2, (1, 60), none, none, 0, 0, 0, []⟩

/-- A prior-cycle history for `historyDemoConfig` whose first record checks
out on day 11 — exactly the day the next generation call starts on
(last departure 10 + sanitary 0 + 1). -/
def historyDemo : List ArrivalRecord :=
  [⟨1, 1, 8, 11, 50, 50, 100, 0, 1, 51⟩, ⟨1, 2, 7, 10, 50, 100, 100, 0, 52, 102⟩]

/-- Per-record no-overbooking property (claim C1): occupancy never exceeds
the record's effective capacity, and a final-day record sits exactly at it. -/
def OccProp (c : Config) (r : ArrivalRecord) : Prop :=
  r.rest_beds ≤ r.bed_capacity ∧
    (r.arrival_day_number = c.arrival_days → r.rest_beds = r.bed_capacity)

/-- Consecutive-record voucher-window relation (claim C5): each window
starts right after the previous one ends. -/
def VnRel (a b : ArrivalRecord) : Prop :=
  b.voucher_number_from = a.voucher_number_to + 1

/-- Occupancy recurrence between consecutive records (claims C3/C9):
each record's occupancy is the previous one's plus its own voucher count. -/
def RestRel (a b : ArrivalRecord) : Prop :=
  b.rest_beds = a.rest_beds + b.vouchers_count

/-- Capacity stickiness relation (claim C4): once some record's effective
capacity departs from the full bed capacity, every later record of the same
call carries the reduced capacity. -/
def StickyRel (c : Config) (a b : ArrivalRecord) : Prop :=
  a.bed_capacity ≠ c.bed_capacity →
    b.bed_capacity = c.bed_capacity - c.reduce_beds

/-- The checkout decrement inside the generation loop is dead code:
`prev_arrival_end_dates` is always the empty list, so the membership test
fails and `rest_beds` passes through unchanged. -/
theorem checkout_branch_id (prev : List ArrivalRecord) (ad : Nat) (d rb : Int) :
    (if prev ≠ [] ∧ d ∈ prev_arrival_end_dates prev then
      match prev.get? ad with
      | some r => rb - r.vouchers_count
      | none => rb
    else rb) = rb := by
  rw [if_neg]
  rintro ⟨-, h⟩
  simp [prev_arrival_end_dates] at h

/-- Loop invariant for claim C1: every record in the accumulator satisfies
`OccProp`, and every record the loop appends does too, because a day is
admitted only when `rest_beds + tours_per_day ≤ bed_capacity` and the
final-day top-up closes the gap exactly. -/
theorem loop_occ (c : Config) (prev : List ArrivalRecord) (an sd ed : Int) :
    ∀ (fuel : Nat) (ad : Nat) (di rb tpd cap vnf vnt : Int)
      (acc : List ArrivalRecord),
    (∀ r ∈ acc, OccProp c r) →
    ∀ r ∈ get_arrival_loop c prev an sd ed fuel ad di rb tpd cap vnf vnt acc,
      OccProp c r := by
  intro fuel
  induction fuel with
  | zero =>
    intro ad di rb tpd cap vnf vnt acc hacc r hr
    simp only [get_arrival_loop] at hr
    exact hacc r hr
  | succ n ih =>
    intro ad di rb tpd cap vnf vnt acc hacc r hr
    simp only [get_arrival_loop, checkout_branch_id] at hr
    repeat' split at hr
    all_goals first
      | exact hacc r hr
      | exact ih _ _ _ _ _ _ _ _ hacc r hr
      | (refine ih _ _ _ _ _ _ _ _ ?_ r hr
         intro s hs
         rcases List.mem_append.mp hs with h | h
         · exact hacc s h
         · rcases List.mem_singleton.mp h with rfl
           dsimp only [OccProp]
           casesm* _ ∧ _
           refine ⟨?_, fun hday => ?_⟩ <;>
             first | (split <;> omega) | omega)

/-- **C1.** For every valid configuration and any history, every record
emitted by a generation call has `rest_beds ≤ bed_capacity` (no
overbooking), and a record for the final day of a cycle — where the
fill-to-capacity top-up applies — has `rest_beds` exactly equal to its
effective capacity, never above it. -/
theorem occupancy_never_exceeds_capacity (c : Config) (prev : List ArrivalRecord)
    (vnf : Int) (hv : validConfig c = true) :
    ∀ r ∈ get_arrival c prev vnf,
      r.rest_beds ≤ r.bed_capacity ∧
        (r.arrival_day_number = c.arrival_days → r.rest_beds = r.bed_capacity) := by
  intro r hr
  simp only [get_arrival] at hr
  exact loop_occ c _ _ _ _ _ _ _ _ _ _ _ _ _ (by simp) r hr

/-- Witness for C1: Scenario A is a valid configuration, its first emitted
record is concrete, and the theorem's conclusion evaluates on it. -/
theorem occupancy_never_exceeds_capacity_witness :
    validConfig scenarioA = true ∧
      (⟨1, 1, 1, 14, 60, 60, 300, 0, 1, 61⟩ : ArrivalRecord) ∈
        get_arrival scenarioA [] 1 ∧
      ((60 : Int) ≤ 300 ∧ ((1 : Nat) = scenarioA.arrival_days → (60 : Int) = 300)) :=
  ⟨by decide, by decide,
    occupancy_never_exceeds_capacity scenarioA [] 1 (by decide)
      ⟨1, 1, 1, 14, 60, 60, 300, 0, 1, 61⟩ (by decide)⟩

/-- **C6.** Scenario A (`bed_capacity = 300`, `stay_days = 14`,
`arrival_days = 5`, period days 1–99): `tours_per_day = ⌊300 / 5⌋ = 60` and
the first generation call returns exactly five records, one per day 1–5,
each issuing 60 vouchers, with occupancy after the fifth record exactly
`300 = bed_capacity` and hence no final-day top-up. -/
theorem scenarioA_first_cycle :
    tours_per_day scenarioA = 60 ∧
    get_arrival scenarioA [] 1 =
      [⟨1, 1, 1, 14, 60, 60, 300, 0, 1, 61⟩,
       ⟨1, 2, 2, 15, 60, 120, 300, 0, 62, 122⟩,
       ⟨1, 3, 3, 16, 60, 180, 300, 0, 123, 183⟩,
       ⟨1, 4, 4, 17, 60, 240, 300, 0, 184, 244⟩,
       ⟨1, 5, 5, 18, 60, 300, 300, 0, 245, 305⟩] := by
  constructor <;> decide

/-- **C7 counterexample.** Assigning `arrival_days := 0` is not rejected:
the setter's `if value:` guard skips the validator for a falsy value, so
`0` is stored even though it violates `0 < v`. -/
theorem set_arrival_days_zero_not_rejected :
    set_arrival_days 14 0 = Except.ok 0 ∧ ¬(0 < (0 : Int)) :=
  ⟨rfl, by decide⟩

/-- **C7 (amended).** `set_arrival_days` raises `VoucherIntBetween` iff the
assigned value is nonzero and violates `0 < v ≤ stay_days`; an assignment
of `0` bypasses validation and stores `0`, and any other accepted value
satisfies the bounds. -/
theorem set_arrival_days_spec (s v : Int) :
    (set_arrival_days s v = Except.error VoucherError.intBetween ↔
      v ≠ 0 ∧ ¬(0 < v ∧ v ≤ s)) ∧
    (set_arrival_days s v = Except.ok v ↔ (v = 0 ∨ (0 < v ∧ v ≤ s))) := by
  unfold set_arrival_days
  by_cases h0 : v = 0 <;> by_cases hb : 0 < v ∧ v ≤ s <;>
    simp [h0, hb]

/-- The stop period recorded in a valid configuration is ordered and
contained in the planning period. -/
theorem validConfig_stop (c : Config) (hv : validConfig c = true) :
    ∀ sp, c.stop_period = some sp →
      c.period.1 ≤ sp.1 ∧ sp.1 ≤ sp.2 ∧ sp.2 ≤ c.period.2 := by
  intro sp hsp
  simp only [validConfig, hsp, Bool.and_eq_true, decide_eq_true_eq] at hv
  refine ⟨?_, ?_, ?_⟩ <;> omega

/-- Loop invariant for claim C2, part 1: every appended record's check-in is
at or after the loop's base start date (since `day_iterate` only grows) and
its check-out is at or before the period end (the loop breaks first). -/
theorem loop_bounds (c : Config) (prev : List ArrivalRecord) (an sd ed : Int) :
    ∀ (fuel : Nat) (ad : Nat) (di rb tpd cap vnf vnt : Int)
      (acc : List ArrivalRecord),
    0 ≤ di →
    (∀ r ∈ acc, sd ≤ r.arrival_date ∧ r.departure_date ≤ ed) →
    ∀ r ∈ get_arrival_loop c prev an sd ed fuel ad di rb tpd cap vnf vnt acc,
      sd ≤ r.arrival_date ∧ r.departure_date ≤ ed := by
  intro fuel
  induction fuel with
  | zero =>
    intro ad di rb tpd cap vnf vnt acc hdi hacc r hr
    simp only [get_arrival_loop] at hr
    exact hacc r hr
  | succ n ih =>
    intro ad di rb tpd cap vnf vnt acc hdi hacc r hr
    simp only [get_arrival_loop, checkout_branch_id] at hr
    repeat' split at hr
    all_goals first
      | exact hacc r hr
      | exact ih _ _ _ _ _ _ _ _ (by omega) hacc r hr
      | (refine ih _ _ _ _ _ _ _ _ (by omega) ?_ r hr
         intro s hs
         rcases List.mem_append.mp hs with h | h
         · exact hacc s h
         · rcases List.mem_singleton.mp h with rfl
           refine ⟨?_, ?_⟩ <;> (dsimp only; omega))

/-- Loop invariant for claim C2, part 2: when a stop period is configured,
no emitted record's stay interval intersects it — the loop breaks on
intersection before emitting anything. -/
theorem loop_stop_free (c : Config) (prev : List ArrivalRecord) (an sd ed : Int)
    (sp : Int × Int) (hsp : c.stop_period = some sp) :
    ∀ (fuel : Nat) (ad : Nat) (di rb tpd cap vnf vnt : Int)
      (acc : List ArrivalRecord),
    (∀ r ∈ acc, is_intersection (r.arrival_date, r.departure_date) sp = false) →
    ∀ r ∈ get_arrival_loop c prev an sd ed fuel ad di rb tpd cap vnf vnt acc,
      is_intersection (r.arrival_date, r.departure_date) sp = false := by
  intro fuel
  induction fuel with
  | zero =>
    intro ad di rb tpd cap vnf vnt acc hacc r hr
    simp only [get_arrival_loop] at hr
    exact hacc r hr
  | succ n ih =>
    intro ad di rb tpd cap vnf vnt acc hacc r hr
    simp only [get_arrival_loop, checkout_branch_id, hsp] at hr
    repeat' split at hr
    all_goals first
      | exact hacc r hr
      | exact ih _ _ _ _ _ _ _ _ hacc r hr
      | (refine ih _ _ _ _ _ _ _ _ ?_ r hr
         intro s hs
         rcases List.mem_append.mp hs with h | h
         · exact hacc s h
         · rcases List.mem_singleton.mp h with rfl
           dsimp only
           simp_all)

/-- **C2.** For every valid configuration and any history the accumulation
loop can produce (`prevOk`), every record emitted by a generation call
checks in at or after `period.start`, checks out at or before `period.end`,
and its stay interval does not intersect the stop period when one is set. -/
theorem records_within_period_and_stop_free (c : Config)
    (prev : List ArrivalRecord) (vnf : Int) (hv : validConfig c = true)
    (hp : prevOk c prev) :
    ∀ r ∈ get_arrival c prev vnf,
      c.period.1 ≤ r.arrival_date ∧ r.departure_date ≤ c.period.2 ∧
        ∀ sp, c.stop_period = some sp →
          is_intersection (r.arrival_date, r.departure_date) sp = false := by
  intro r hr
  have hstop := validConfig_stop c hv
  simp only [get_arrival] at hr
  rcases hlast : prev.getLast? with - | rl
  · simp only [hlast] at hr
    refine ⟨(loop_bounds c _ _ _ _ _ _ _ _ _ _ _ _ _ le_rfl (by simp) r hr).1,
      (loop_bounds c _ _ _ _ _ _ _ _ _ _ _ _ _ le_rfl (by simp) r hr).2,
      fun sp hsp2 =>
        loop_stop_free c _ _ _ _ sp hsp2 _ _ _ _ _ _ _ _ _ (by simp) r hr⟩
  · have hresume : c.period.1 ≤ rl.departure_date + (rl.skip_days_after + 1) := by
      rcases hp with hp | hp
      · subst hp; simp at hlast
      · exact hp rl hlast
    simp only [hlast] at hr
    rcases hsp : c.stop_period with - | sp
    · simp only [hsp] at hr
      have hb := loop_bounds c _ _ _ _ _ _ _ _ _ _ _ _ _ le_rfl (by simp) r hr
      exact ⟨by omega, hb.2, fun sp2 hsp2 => nomatch hsp2⟩
    · simp only [hsp] at hr
      by_cases hra : rl.departure_date + (rl.skip_days_after + 1) < sp.2 ∧
          prev.length < c.arrival_days
      · rw [if_pos hra] at hr
        have hcont := hstop sp hsp
        have hb := loop_bounds c _ _ _ _ _ _ _ _ _ _ _ _ _ le_rfl (by simp) r hr
        exact ⟨by omega, hb.2,
          fun sp2 hsp2 =>
            loop_stop_free c _ _ _ _ sp2 (hsp.trans hsp2) _ _ _ _ _ _ _ _ _
              (by simp) r hr⟩
      · rw [if_neg hra] at hr
        have hb := loop_bounds c _ _ _ _ _ _ _ _ _ _ _ _ _ le_rfl (by simp) r hr
        exact ⟨by omega, hb.2,
          fun sp2 hsp2 =>
            loop_stop_free c _ _ _ _ sp2 (hsp.trans hsp2) _ _ _ _ _ _ _ _ _
              (by simp) r hr⟩

/-- Scenario A with a stop period on days 50–60, used to witness C2. -/
def stopConfig : Config := ⟨0, 300, 14, 5, (1, 99), some (50, 60), none, 0, 0, 0, []⟩

/-- Witness for C2: a valid configuration with a stop period, the empty
history, and a concrete emitted record on which the conclusion evaluates. -/
theorem records_within_period_witness :
    validConfig stopConfig = true ∧ prevOk stopConfig [] ∧
      (⟨1, 1, 1, 14, 60, 60, 300, 0, 1, 61⟩ : ArrivalRecord) ∈
        get_arrival stopConfig [] 1 ∧
      ((1 : Int) ≤ 1 ∧ (14 : Int) ≤ 99 ∧
        ∀ sp, stopConfig.stop_period = some sp →
          is_intersection (1, 14) sp = false) :=
  ⟨by decide, Or.inl rfl, by decide,
    records_within_period_and_stop_free stopConfig [] 1 (by decide) (Or.inl rfl)
      ⟨1, 1, 1, 14, 60, 60, 300, 0, 1, 61⟩ (by decide)⟩

/-- The occupancy value carried by the loop state: the last accumulated
record's occupancy, or the loop-entry base value when none exists. -/
def last_rest (r0 : Int) (acc : List ArrivalRecord) : Int :=
  match acc.getLast? with
  | some r => r.rest_beds
  | none => r0

/-- Loop invariant for claims C3/C9: since the checkout decrement is dead,
the running occupancy equals the last emitted record's occupancy, each new
record adds exactly its own voucher count (top-up included), and the first
emitted record sits at the base occupancy plus its own voucher count. -/
theorem loop_rest (c : Config) (prev : List ArrivalRecord) (an sd ed r0 : Int) :
    ∀ (fuel : Nat) (ad : Nat) (di rb tpd cap vnf vnt : Int)
      (acc : List ArrivalRecord),
    rb = last_rest r0 acc →
    List.Chain' RestRel acc →
    (∀ h ∈ acc.head?, h.rest_beds = r0 + h.vouchers_count) →
    List.Chain' RestRel
        (get_arrival_loop c prev an sd ed fuel ad di rb tpd cap vnf vnt acc) ∧
      ∀ h ∈ (get_arrival_loop c prev an sd ed fuel ad di rb tpd cap vnf vnt
          acc).head?, h.rest_beds = r0 + h.vouchers_count := by
  intro fuel
  induction fuel with
  | zero =>
    intro ad di rb tpd cap vnf vnt acc hrb hch hhd
    simp only [get_arrival_loop]
    exact ⟨hch, hhd⟩
  | succ n ih =>
    intro ad di rb tpd cap vnf vnt acc hrb hch hhd
    simp only [get_arrival_loop, checkout_branch_id]
    repeat' split
    all_goals first
      | exact ⟨hch, hhd⟩
      | exact ih _ _ _ _ _ _ _ _ hrb hch hhd
      | (refine ih _ _ _ _ _ _ _ _ ?_ ?_ ?_
         · simp [last_rest, List.getLast?_concat]
         · refine List.chain'_append.mpr ⟨hch, List.chain'_singleton _, ?_⟩
           intro a ha b hb
           rcases List.mem_singleton.mp (List.mem_of_mem_head? hb) with rfl
           have hra : rb = a.rest_beds := by
             rw [hrb]
             simp only [last_rest]
             rw [Option.mem_def.mp ha]
           dsimp only [RestRel]
           omega
         · intro h hh
           rcases hacc0 : acc with - | ⟨x, xs⟩
           · subst hacc0
             simp only [List.nil_append, List.head?_cons, Option.mem_def,
               Option.some.injEq] at hh
             have hrb0 : rb = r0 := by rw [hrb]; rfl
             rw [← hh]
             dsimp only
             omega
           · subst hacc0
             simp only [List.cons_append, List.head?_cons, Option.mem_def,
               Option.some.injEq] at hh
             rw [← hh]
             exact hhd _ rfl)

/-- Generation-call corollary of `loop_rest`: within a call the occupancy
sequence starts at zero (first record's occupancy is its own voucher count)
and advances by exactly each record's voucher count. -/
theorem get_arrival_rest_chain (c : Config) (prev : List ArrivalRecord)
    (vnf : Int) :
    List.Chain' RestRel (get_arrival c prev vnf) ∧
      ∀ h ∈ (get_arrival c prev vnf).head?,
        h.rest_beds = h.vouchers_count := by
  constructor
  · simp only [get_arrival]
    exact (loop_rest c _ _ _ _ 0 _ _ _ _ _ _ _ _ []
      rfl List.chain'_nil (by simp)).1
  · intro h hh
    simp only [get_arrival] at hh
    have := (loop_rest c _ _ _ _ 0 _ _ _ _ _ _ _ _ []
      rfl List.chain'_nil (by simp)).2 h hh
    omega

/-- Turns the head value plus the chain recurrence into the prefix-sum
description of the occupancy column. -/
theorem chain_rest_sum (base : Int) :
    ∀ (l : List ArrivalRecord),
      List.Chain' RestRel l →
      (∀ h ∈ l.head?, h.rest_beds = base + h.vouchers_count) →
      ∀ (k : Nat) (r : ArrivalRecord), l.get? k = some r →
        r.rest_beds =
          base + ((l.take (k + 1)).map ArrivalRecord.vouchers_count).sum := by
  intro l
  induction l generalizing base with
  | nil =>
    intro _ _ k r hk
    cases hk
  | cons x xs ih =>
    intro hch hhd k r hk
    have hx : x.rest_beds = base + x.vouchers_count := hhd x rfl
    cases k with
    | zero =>
      simp only [List.get?_cons_zero, Option.some.injEq] at hk
      subst hk
      simp only [List.take_succ_cons, List.take_zero, List.map_cons,
        List.map_nil, List.sum_cons, List.sum_nil]
      omega
    | succ k =>
      simp only [List.get?_cons_succ] at hk
      have htail := ih x.rest_beds (List.Chain'.tail hch)
        (fun h hh => (List.chain'_cons'.mp hch).1 h hh) k r hk
      simp only [List.take_succ_cons, List.map_cons, List.sum_cons]
      omega

/-- **C9.** Every generation call starts its running occupancy at zero
regardless of the history passed in: the k-th emitted record's occupancy
equals the sum of the voucher counts of the first k records of the same
call; in particular the first record's occupancy is its own voucher count. -/
theorem occupancy_is_prefix_sum (c : Config) (prev : List ArrivalRecord)
    (vnf : Int) :
    ∀ (k : Nat) (r : ArrivalRecord), (get_arrival c prev vnf).get? k = some r →
      r.rest_beds =
        (((get_arrival c prev vnf).take (k + 1)).map
          ArrivalRecord.vouchers_count).sum := by
  intro k r hk
  have H := get_arrival_rest_chain c prev vnf
  have := chain_rest_sum 0 _ H.1 (fun h hh => by have := H.2 h hh; omega) k r hk
  omega

/-- Witness for C9: the second record of Scenario A's first cycle (after a
non-empty history would be equally fine), whose occupancy 120 is the sum
60 + 60 of the first two voucher counts. -/
theorem occupancy_is_prefix_sum_witness :
    (get_arrival scenarioA [] 1).get? 1 =
        some ⟨1, 2, 2, 15, 60, 120, 300, 0, 62, 122⟩ ∧
      (120 : Int) =
        (((get_arrival scenarioA [] 1).take 2).map
          ArrivalRecord.vouchers_count).sum :=
  ⟨by decide,
    occupancy_is_prefix_sum scenarioA [] 1 1
      ⟨1, 2, 2, 15, 60, 120, 300, 0, 62, 122⟩ (by decide)⟩

/-- **C3 counterexample.** With `historyDemo`, the first candidate check-in
day (11) equals the prior cycle's day-1 check-out date and that day-slot
issued 50 vouchers, yet the first emitted record's occupancy is the full 50
of its own vouchers: the claimed decrement (which would leave
`0 - 50 + 50 = 0`) never happens, because `prev_arrival_end_dates` is
always empty. -/
theorem no_cohort_decrement_counterexample :
    (historyDemo.get? 0).map ArrivalRecord.departure_date = some 11 ∧
      ((get_arrival historyDemoConfig historyDemo 1).head?).map
          ArrivalRecord.arrival_date = some 11 ∧
      ((get_arrival historyDemoConfig historyDemo 1).head?).map
          ArrivalRecord.rest_beds = some 50 ∧
      ¬((50 : Int) = 0 - 50 + 50) :=
  ⟨by decide, by decide, by decide, by decide⟩

/-- **C3 (amended).** The prior-cycle cohort tracking is disabled in the
code: `prev_arrival_end_dates` is empty for every history, so occupancy is
never decremented during a generation call — it restarts from zero and each
record's occupancy is the previous record's plus its own voucher count,
whatever history is passed in. -/
theorem no_cohort_decrement (c : Config) (prev : List ArrivalRecord)
    (vnf : Int) :
    prev_arrival_end_dates prev = [] ∧
      List.Chain' RestRel (get_arrival c prev vnf) ∧
      ∀ h ∈ (get_arrival c prev vnf).head?, h.rest_beds = h.vouchers_count :=
  ⟨rfl, (get_arrival_rest_chain c prev vnf).1,
    (get_arrival_rest_chain c prev vnf).2⟩

/-- Witness for C3 (amended), at the concrete history `historyDemo`. -/
theorem no_cohort_decrement_witness :
    prev_arrival_end_dates historyDemo = [] ∧
      ((get_arrival historyDemoConfig historyDemo 1).head?).map
          ArrivalRecord.rest_beds =
        ((get_arrival historyDemoConfig historyDemo 1).head?).map
          ArrivalRecord.vouchers_count :=
  ⟨(no_cohort_decrement historyDemoConfig historyDemo 1).1, by decide⟩

/-- Per-record voucher-window property (claim C10): the inclusive numbering
window spans the pre-top-up tours-per-day value, so it never exceeds the
recorded voucher count and matches it exactly on non-final days. -/
def WindowProp (c : Config) (r : ArrivalRecord) : Prop :=
  r.voucher_number_to - r.voucher_number_from ≤ r.vouchers_count ∧
    (r.arrival_day_number ≠ c.arrival_days →
      r.voucher_number_to - r.voucher_number_from = r.vouchers_count)

/-- Loop invariant for claim C10: while the loop is running,
`voucher_number_to = voucher_number_from + tours_per_day` (the reduction
branch re-establishes it), so each emitted record's window spans the tours
value at admission, before any final-day top-up widens the voucher count. -/
theorem loop_window (c : Config) (prev : List ArrivalRecord) (an sd ed : Int) :
    ∀ (fuel : Nat) (ad : Nat) (di rb tpd cap vnf vnt : Int)
      (acc : List ArrivalRecord),
    (ad < c.arrival_days → vnt = vnf + tpd) →
    (∀ r ∈ acc, WindowProp c r) →
    ∀ r ∈ get_arrival_loop c prev an sd ed fuel ad di rb tpd cap vnf vnt acc,
      WindowProp c r := by
  intro fuel
  induction fuel with
  | zero =>
    intro ad di rb tpd cap vnf vnt acc hinv hacc r hr
    simp only [get_arrival_loop] at hr
    exact hacc r hr
  | succ n ih =>
    intro ad di rb tpd cap vnf vnt acc hinv hacc r hr
    simp only [get_arrival_loop, checkout_branch_id] at hr
    repeat' split at hr
    all_goals first
      | exact hacc r hr
      | exact ih _ _ _ _ _ _ _ _ (fun h2 => rfl) hacc r hr
      | exact ih _ _ _ _ _ _ _ _ hinv hacc r hr
      | (have hvt := hinv (by omega)
         refine ih _ _ _ _ _ _ _ _ (fun h2 => by omega) ?_ r hr
         intro s hs
         rcases List.mem_append.mp hs with h | h
         · exact hacc s h
         · rcases List.mem_singleton.mp h with rfl
           dsimp only [WindowProp]
           casesm* _ ∧ _
           refine ⟨by omega, fun hday => by omega⟩)

/-- **C10.** For every emitted record, the inclusive voucher-number window
`voucher_number_to - voucher_number_from` equals the tours-per-day value in
force before any final-day top-up: on every non-final day of a cycle it
equals the recorded voucher count (the window covers `vouchers_count + 1`
numbers), and on a topped-up final day the window does not grow with the
topped-up voucher count (it stays at most the count). -/
theorem window_spans_pre_topup_tours (c : Config) (prev : List ArrivalRecord)
    (vnf : Int) :
    ∀ r ∈ get_arrival c prev vnf,
      r.voucher_number_to - r.voucher_number_from ≤ r.vouchers_count ∧
        (r.arrival_day_number ≠ c.arrival_days →
          r.voucher_number_to - r.voucher_number_from = r.vouchers_count) := by
  intro r hr
  simp only [get_arrival] at hr
  exact loop_window c _ _ _ _ _ _ _ _ _ _ _ _ _ (fun h => rfl) (by simp) r hr

/-- A configuration whose final cycle day tops up: `bed_capacity = 10`,
`arrival_days = 3`, `tours_per_day = 3`, so day 3 adds a shortfall of 1
(voucher count 4) while its number window still spans 3. -/
def topupConfig : Config := ⟨0, 10, 2, 3, (1, 60), none, none, 0, 0, 0, []⟩

/-- Witness for C10 at a topped-up final-day record of `topupConfig`: the
window spans `12 - 9 = 3` (the pre-top-up tours value) while the topped-up
voucher count is 4, so the window did not grow with the top-up. -/
theorem window_spans_pre_topup_tours_witness :
    (⟨1, 3, 3, 4, 4, 10, 10, 0, 9, 12⟩ : ArrivalRecord) ∈
        get_arrival topupConfig [] 1 ∧
      ((12 : Int) - 9 ≤ 4 ∧
        ((3 : Nat) ≠ topupConfig.arrival_days → (12 : Int) - 9 = 4)) :=
  ⟨by decide,
    window_spans_pre_topup_tours topupConfig [] 1
      ⟨1, 3, 3, 4, 4, 10, 10, 0, 9, 12⟩ (by decide)⟩

/-- **C4 counterexample.** In `stickyReductionConfig` the fifth candidate
day's stay interval [5, 6] does not intersect the reduction period [3, 4],
yet the fifth emitted record still carries the reduced capacity 10 rather
than the full `bed_capacity = 11`: the claim that days after a
reduction-intersecting day revert to the full capacity fails, because the
code never resets the reduced values. -/
theorem reduction_not_day_local_counterexample :
    is_intersection (5, 6) (3, 4) = false ∧
      ((get_arrival stickyReductionConfig [] 1).get? 4).map
          (fun r => (r.arrival_date, r.departure_date, r.bed_capacity)) =
        some (5, 6, 10) ∧
      ¬((10 : Int) = 11) :=
  ⟨by decide, by decide, by decide⟩

/-- Loop invariant for claim C4, reduction-hit part: a record whose own stay
interval intersects the configured reduction period is emitted with the
reduced capacity, and with the reduced tours value unless the final-day
top-up raised it. -/
theorem loop_red_hit (c : Config) (prev : List ArrivalRecord) (an sd ed : Int)
    (rp : Int × Int) (hrp : c.reducing_period = some rp) :
    ∀ (fuel : Nat) (ad : Nat) (di rb tpd cap vnf vnt : Int)
      (acc : List ArrivalRecord),
    (∀ r ∈ acc, is_intersection (r.arrival_date, r.departure_date) rp = true →
      r.bed_capacity = c.bed_capacity - c.reduce_beds ∧
        (r.arrival_day_number ≠ c.arrival_days →
          r.vouchers_count = reduce_tours_per_day c)) →
    ∀ r ∈ get_arrival_loop c prev an sd ed fuel ad di rb tpd cap vnf vnt acc,
      is_intersection (r.arrival_date, r.departure_date) rp = true →
        r.bed_capacity = c.bed_capacity - c.reduce_beds ∧
          (r.arrival_day_number ≠ c.arrival_days →
            r.vouchers_count = reduce_tours_per_day c) := by
  intro fuel
  induction fuel with
  | zero =>
    intro ad di rb tpd cap vnf vnt acc hacc r hr
    simp only [get_arrival_loop] at hr
    exact hacc r hr
  | succ n ih =>
    intro ad di rb tpd cap vnf vnt acc hacc r hr
    simp only [get_arrival_loop, checkout_branch_id, hrp] at hr
    repeat' split at hr
    all_goals first
      | exact hacc r hr
      | exact ih _ _ _ _ _ _ _ _ hacc r hr
      | (refine ih _ _ _ _ _ _ _ _ ?_ r hr
         intro s hs
         rcases List.mem_append.mp hs with h | h
         · exact hacc s h
         · rcases List.mem_singleton.mp h with rfl
           intro hint
           first
             | exact absurd hint (by assumption)
             | (casesm* _ ∧ _
                refine ⟨rfl, fun hday => by dsimp only at hday ⊢; omega⟩))

/-- Loop invariant for claim C4, stickiness part: the loop capacity is
always the full or the reduced one, it never returns to the full value once
reduced (there is no reset branch), and therefore any record following a
reduced-capacity record is itself emitted at the reduced capacity. -/
theorem loop_sticky (c : Config) (prev : List ArrivalRecord) (an sd ed : Int)
    (hR : c.reduce_beds ≠ 0) :
    ∀ (fuel : Nat) (ad : Nat) (di rb tpd cap vnf vnt : Int)
      (acc : List ArrivalRecord),
    (cap = c.bed_capacity ∨ cap = c.bed_capacity - c.reduce_beds) →
    ((∃ r ∈ acc, r.bed_capacity ≠ c.bed_capacity) → cap ≠ c.bed_capacity) →
    (∀ r ∈ acc, r.bed_capacity = c.bed_capacity ∨
        r.bed_capacity = c.bed_capacity - c.reduce_beds) →
    List.Pairwise (StickyRel c) acc →
    (∀ r ∈ get_arrival_loop c prev an sd ed fuel ad di rb tpd cap vnf vnt acc,
        r.bed_capacity = c.bed_capacity ∨
          r.bed_capacity = c.bed_capacity - c.reduce_beds) ∧
      List.Pairwise (StickyRel c)
        (get_arrival_loop c prev an sd ed fuel ad di rb tpd cap vnf vnt acc) := by
  intro fuel
  induction fuel with
  | zero =>
    intro ad di rb tpd cap vnf vnt acc h1 h2 h3 h4
    simp only [get_arrival_loop]
    exact ⟨h3, h4⟩
  | succ n ih =>
    intro ad di rb tpd cap vnf vnt acc h1 h2 h3 h4
    simp only [get_arrival_loop, checkout_branch_id]
    repeat' split
    all_goals first
      | exact ⟨h3, h4⟩
      | exact ih _ _ _ _ _ _ _ _ h1 h2 h3 h4
      | exact ih _ _ _ _ _ _ _ _ (Or.inr rfl) (fun he => by omega) h3 h4
      | (refine ih _ _ _ _ _ _ _ _ ?_ ?_ ?_ ?_
         · first | exact Or.inr rfl | exact h1
         · rintro ⟨s, hs, hsne⟩
           rcases List.mem_append.mp hs with h | h
           · have := h2 ⟨s, h, hsne⟩
             first | omega | exact this
           · rcases List.mem_singleton.mp h with rfl
             first | omega | exact hsne
         · intro s hs
           rcases List.mem_append.mp hs with h | h
           · exact h3 s h
           · rcases List.mem_singleton.mp h with rfl
             first | exact Or.inr rfl | exact h1
         · refine List.pairwise_append.mpr ⟨h4, List.pairwise_singleton _ _, ?_⟩
           intro a ha b hb
           rcases List.mem_singleton.mp hb with rfl
           intro hane
           have hcne := h2 ⟨a, ha, hane⟩
           first
             | rfl
             | (rcases h1 with h1a | h1a
                · exact absurd h1a hcne
                · exact h1a))

/-- Loop invariant for claim C4, no-reduction part: without a reduction
period the loop capacity stays at the full bed capacity and the tours value
stays at `tours_per_day`, so every record carries the full capacity and (off
the final day) the standard tours value. -/
theorem loop_no_reduction (c : Config) (prev : List ArrivalRecord)
    (an sd ed : Int) (hred : c.reducing_period = none) :
    ∀ (fuel : Nat) (ad : Nat) (di rb tpd cap vnf vnt : Int)
      (acc : List ArrivalRecord),
    (ad < c.arrival_days → tpd = tours_per_day c) →
    cap = c.bed_capacity →
    (∀ r ∈ acc, r.bed_capacity = c.bed_capacity ∧
        (r.arrival_day_number ≠ c.arrival_days →
          r.vouchers_count = tours_per_day c)) →
    ∀ r ∈ get_arrival_loop c prev an sd ed fuel ad di rb tpd cap vnf vnt acc,
      r.bed_capacity = c.bed_capacity ∧
        (r.arrival_day_number ≠ c.arrival_days →
          r.vouchers_count = tours_per_day c) := by
  intro fuel
  induction fuel with
  | zero =>
    intro ad di rb tpd cap vnf vnt acc hT hcap hacc r hr
    simp only [get_arrival_loop] at hr
    exact hacc r hr
  | succ n ih =>
    intro ad di rb tpd cap vnf vnt acc hT hcap hacc r hr
    simp only [get_arrival_loop, checkout_branch_id, hred, Bool.false_eq_true,
      if_false] at hr
    repeat' split at hr
    all_goals first
      | exact hacc r hr
      | exact ih _ _ _ _ _ _ _ _ hT hcap hacc r hr
      | (have hT2 := hT (by omega)
         refine ih _ _ _ _ _ _ _ _ (fun h2 => by omega) hcap ?_ r hr
         intro s hs
         rcases List.mem_append.mp hs with h | h
         · exact hacc s h
         · rcases List.mem_singleton.mp h with rfl
           casesm* _ ∧ _
           exact ⟨hcap, fun hday => by dsimp only at hday ⊢; omega⟩)

/-- **C4 (amended).** Within one generation call, a candidate day whose stay
interval intersects the reduction period is emitted with
`effectiveCapacity = bedCapacity - reducedBedCount` and (off the final day)
`vouchersIssuedToday = reduce_tours_per_day`; however the reduced values are
never reset: every record following a reduced-capacity record of the same
call is also emitted at the reduced capacity.  Only when no reduction
period is configured does every record use the full `bedCapacity` and (off
the final day) the standard tours-per-day formula. -/
theorem reduction_is_sticky_within_call (c : Config)
    (prev : List ArrivalRecord) (vnf : Int) (hR : c.reduce_beds ≠ 0) :
    (∀ rp, c.reducing_period = some rp →
      (∀ r ∈ get_arrival c prev vnf,
        is_intersection (r.arrival_date, r.departure_date) rp = true →
          r.bed_capacity = c.bed_capacity - c.reduce_beds ∧
            (r.arrival_day_number ≠ c.arrival_days →
              r.vouchers_count = reduce_tours_per_day c)) ∧
        List.Pairwise (StickyRel c) (get_arrival c prev vnf)) ∧
      (c.reducing_period = none →
        ∀ r ∈ get_arrival c prev vnf,
          r.bed_capacity = c.bed_capacity ∧
            (r.arrival_day_number ≠ c.arrival_days →
              r.vouchers_count = tours_per_day c)) := by
  constructor
  · intro rp hrp
    constructor
    · intro r hr
      simp only [get_arrival] at hr
      exact loop_red_hit c _ _ _ _ rp hrp _ _ _ _ _ _ _ _ _ (by simp) r hr
    · simp only [get_arrival]
      exact (loop_sticky c _ _ _ _ hR _ _ _ _ _ _ _ _ []
        (Or.inl rfl) (by rintro ⟨s, hs, -⟩; cases hs) (by simp)
        List.Pairwise.nil).2
  · intro hred r hr
    simp only [get_arrival] at hr
    exact loop_no_reduction c _ _ _ _ hred _ _ _ _ _ _ _ _ _
      (fun h2 => rfl) rfl (by simp) r hr

/-- Witness for C4 (amended): in `stickyReductionConfig` (`reduce_beds = 1`)
the second record's stay hits the reduction period and is emitted with
capacity `11 - 1 = 10` and the reduced tours value 2. -/
theorem reduction_is_sticky_within_call_witness :
    ((1 : Int) ≠ 0) ∧ stickyReductionConfig.reducing_period = some (3, 4) ∧
      (⟨1, 2, 2, 3, 2, 4, 10, 0, 4, 6⟩ : ArrivalRecord) ∈
        get_arrival stickyReductionConfig [] 1 ∧
      is_intersection (2, 3) (3, 4) = true ∧
      ((10 : Int) = 11 - 1 ∧ ((2 : Nat) ≠ 5 → (2 : Int) =
        reduce_tours_per_day stickyReductionConfig)) :=
  ⟨by decide, rfl, by decide, by decide,
    ((reduction_is_sticky_within_call stickyReductionConfig [] 1 (by decide)).1
        (3, 4) rfl).1 ⟨1, 2, 2, 3, 2, 4, 10, 0, 4, 6⟩ (by decide) (by decide)⟩

/-- **C5 counterexample.** With `reductionOverlapConfig` the reduction makes
the tours value drop from 60 to 50 on the second day, and the advance
`voucher_number_from := voucher_number_from + tours_per_day + 1` then uses
the smaller value: the second record's window starts at 52 while the first
record's window ends at 61 — the windows overlap instead of being strictly
increasing. -/
theorem voucher_windows_overlap_counterexample :
    ((get_arrival reductionOverlapConfig [] 1).get? 0).map
        ArrivalRecord.voucher_number_to = some 61 ∧
      ((get_arrival reductionOverlapConfig [] 1).get? 1).map
        ArrivalRecord.voucher_number_from = some 52 ∧
      ¬((52 : Int) > 61) :=
  ⟨by decide, by decide, by decide⟩

/-- Loop invariant for claim C5 when no reduction period is configured: the
tours value stays constant at `T`, `vnt = vnf + T` is maintained, the last
accumulated record's window is `[vnf, vnf + T]`, each appended record's
window starts at the previous record's end plus one, and the first emitted
record's window starts at the call's initial voucher number `v0`. -/
theorem loop_vn_chain (c : Config) (prev : List ArrivalRecord) (an sd ed : Int)
    (hred : c.reducing_period = none) (T v0 : Int) :
    ∀ (fuel : Nat) (ad : Nat) (di rb tpd cap vnf vnt : Int)
      (acc : List ArrivalRecord),
    (ad < c.arrival_days → tpd = T) →
    (ad < c.arrival_days → vnt = vnf + T) →
    (acc = [] → ad = 0 ∧ vnf = v0) →
    (acc ≠ [] → 0 < ad) →
    (∀ a ∈ acc.getLast?, a.voucher_number_from = vnf ∧
        a.voucher_number_to = vnf + T) →
    List.Chain' VnRel acc →
    (∀ h ∈ acc.head?, h.voucher_number_from = v0) →
    List.Chain' VnRel
        (get_arrival_loop c prev an sd ed fuel ad di rb tpd cap vnf vnt acc) ∧
      ∀ h ∈ (get_arrival_loop c prev an sd ed fuel ad di rb tpd cap vnf vnt
          acc).head?, h.voucher_number_from = v0 := by
  intro fuel
  induction fuel with
  | zero =>
    intro ad di rb tpd cap vnf vnt acc hT hvt hemp hne hlastw hch hhd
    simp only [get_arrival_loop]
    exact ⟨hch, hhd⟩
  | succ n ih =>
    intro ad di rb tpd cap vnf vnt acc hT hvt hemp hne hlastw hch hhd
    simp only [get_arrival_loop, checkout_branch_id, hred, Bool.false_eq_true,
      if_false]
    repeat' split
    all_goals first
      | exact ⟨hch, hhd⟩
      | exact ih _ _ _ _ _ _ _ _ hT hvt hemp hne hlastw hch hhd
      | (refine ih _ _ _ _ _ _ _ _ ?_ ?_ ?_ ?_ ?_ ?_ ?_
         · intro h2
           have h3 := hT (by omega)
           omega
         · intro h2
           have h3 := hT (by omega)
           have h4 := hvt (by omega)
           omega
         · intro hx
           exact absurd hx (by simp)
         · intro hx
           omega
         · intro a ha
           rw [List.getLast?_concat, Option.mem_def, Option.some.injEq] at ha
           subst ha
           have h3 := hT (by omega)
           have h4 := hvt (by omega)
           refine ⟨rfl, ?_⟩
           dsimp only
           omega
         · refine List.chain'_append.mpr ⟨hch, List.chain'_singleton _, ?_⟩
           intro a ha b hb
           rw [List.head?_cons, Option.mem_def, Option.some.injEq] at hb
           subst hb
           by_cases hac : acc = []
           · subst hac
             simp at ha
           · have h3 := hT (by omega)
             have h5 := hlastw a ha
             have h6 := hne hac
             dsimp only [VnRel]
             casesm* _ ∧ _
             omega
         · intro h hh
           rcases hacc0 : acc with - | ⟨y, ys⟩
           · subst hacc0
             simp only [List.nil_append, List.head?_cons, Option.mem_def,
               Option.some.injEq] at hh
             obtain ⟨had0, hv0⟩ := hemp rfl
             rw [← hh]
             dsimp only
             omega
           · subst hacc0
             simp only [List.cons_append, List.head?_cons, Option.mem_def,
               Option.some.injEq] at hh
             rw [← hh]
             exact hhd _ rfl)

/-- Generation-call corollary of `loop_vn_chain`: with no reduction period,
consecutive records of one call chain by `VnRel` and the first record's
window starts at the derived initial voucher number (the prior cycle's last
`voucher_number_to + 1` when a history is present). -/
theorem get_arrival_vn_chain (c : Config) (hred : c.reducing_period = none)
    (prev : List ArrivalRecord) (vnf : Int) :
    List.Chain' VnRel (get_arrival c prev vnf) ∧
      ∀ h ∈ (get_arrival c prev vnf).head?,
        h.voucher_number_from =
          (match prev.getLast? with
           | some r => r.voucher_number_to + 1
           | none => vnf) := by
  rcases hlast : prev.getLast? with - | rl
  · constructor
    · simp only [get_arrival, hlast]
      exact (loop_vn_chain c _ _ _ _ hred (tours_per_day c) vnf _ _ _ _ _ _ _ _
        [] (fun h2 => rfl) (fun h2 => rfl) (fun h2 => ⟨rfl, rfl⟩) (by simp)
        (by simp) List.chain'_nil (by simp)).1
    · intro h hh
      simp only [get_arrival, hlast] at hh
      exact (loop_vn_chain c _ _ _ _ hred (tours_per_day c) vnf _ _ _ _ _ _ _ _
        [] (fun h2 => rfl) (fun h2 => rfl) (fun h2 => ⟨rfl, rfl⟩) (by simp)
        (by simp) List.chain'_nil (by simp)).2 h hh
  · rcases hsp : c.stop_period with - | sp
    · constructor
      · simp only [get_arrival, hlast, hsp]
        exact (loop_vn_chain c _ _ _ _ hred (tours_per_day c)
          (rl.voucher_number_to + 1) _ _ _ _ _ _ _ _ []
          (fun h2 => rfl) (fun h2 => rfl) (fun h2 => ⟨rfl, rfl⟩) (by simp)
          (by simp) List.chain'_nil (by simp)).1
      · intro h hh
        simp only [get_arrival, hlast, hsp] at hh
        exact (loop_vn_chain c _ _ _ _ hred (tours_per_day c)
          (rl.voucher_number_to + 1) _ _ _ _ _ _ _ _ []
          (fun h2 => rfl) (fun h2 => rfl) (fun h2 => ⟨rfl, rfl⟩) (by simp)
          (by simp) List.chain'_nil (by simp)).2 h hh
    · by_cases hra : rl.departure_date + (rl.skip_days_after + 1) < sp.2 ∧
          prev.length < c.arrival_days
      · constructor
        · simp only [get_arrival, hlast, hsp]
          rw [if_pos hra]
          exact (loop_vn_chain c _ _ _ _ hred (tours_per_day c)
            (rl.voucher_number_to + 1) _ _ _ _ _ _ _ _ []
            (fun h2 => rfl) (fun h2 => rfl) (fun h2 => ⟨rfl, rfl⟩) (by simp)
            (by simp) List.chain'_nil (by simp)).1
        · intro h hh
          simp only [get_arrival, hlast, hsp] at hh
          rw [if_pos hra] at hh
          exact (loop_vn_chain c _ _ _ _ hred (tours_per_day c)
            (rl.voucher_number_to + 1) _ _ _ _ _ _ _ _ []
            (fun h2 => rfl) (fun h2 => rfl) (fun h2 => ⟨rfl, rfl⟩) (by simp)
            (by simp) List.chain'_nil (by simp)).2 h hh
      · constructor
        · simp only [get_arrival, hlast, hsp]
          rw [if_neg hra]
          exact (loop_vn_chain c _ _ _ _ hred (tours_per_day c)
            (rl.voucher_number_to + 1) _ _ _ _ _ _ _ _ []
            (fun h2 => rfl) (fun h2 => rfl) (fun h2 => ⟨rfl, rfl⟩) (by simp)
            (by simp) List.chain'_nil (by simp)).1
        · intro h hh
          simp only [get_arrival, hlast, hsp] at hh
          rw [if_neg hra] at hh
          exact (loop_vn_chain c _ _ _ _ hred (tours_per_day c)
            (rl.voucher_number_to + 1) _ _ _ _ _ _ _ _ []
            (fun h2 => rfl) (fun h2 => rfl) (fun h2 => ⟨rfl, rfl⟩) (by simp)
            (by simp) List.chain'_nil (by simp)).2 h hh

/-- Accumulation invariant for claim C5: across the repeated generation
calls, the concatenated rows chain by `VnRel` — each call's first window
continues right after the previous call's last window. -/
theorem generate_loop_vn_chain (c : Config) (hred : c.reducing_period = none)
    (v : Int) :
    ∀ (fuel : Nat) (data rows : List ArrivalRecord),
    (data = [] → rows = []) →
    (data ≠ [] → rows ≠ [] ∧ rows.getLast? = data.getLast?) →
    List.Chain' VnRel rows →
    List.Chain' VnRel (generate_loop c v fuel data rows) := by
  intro fuel
  induction fuel with
  | zero =>
    intro data rows hnil hlast hch
    simp only [generate_loop]
    exact hch
  | succ n ih =>
    intro data rows hnil hlast hch
    simp only [generate_loop]
    split
    · exact hch
    · rename_i hne2
      have hcall := get_arrival_vn_chain c hred data v
      refine ih _ _ ?_ ?_ ?_
      · intro h2; exact absurd h2 hne2
      · intro h2
        constructor
        · intro hx
          rcases List.append_eq_nil.mp hx with ⟨-, h3⟩
          exact hne2 h3
        · exact List.getLast?_append_of_ne_nil _ hne2
      · refine List.chain'_append.mpr ⟨hch, hcall.1, ?_⟩
        intro a ha b hb
        rcases hdata : data with - | ⟨y, ys⟩
        · subst hdata
          rw [hnil rfl] at ha
          simp at ha
        · have hlast2 := (hlast (by simp [hdata])).2
          have hb2 := hcall.2 b hb
          rw [hlast2] at ha
          rw [Option.mem_def] at ha
          rw [ha] at hb2
          dsimp only [VnRel]
          rw [hb2]

/-- **C5 (amended).** When no reduction period is configured, voucher-number
windows are strictly increasing and non-overlapping across the full
generated sequence in generation order: every record's `voucher_number_from`
is the previous record's `voucher_number_to + 1` (the first day of each
cycle continues from the prior cycle's last `voucher_number_to + 1`, and
days within a cycle advance by the constant tours value plus one), hence
strictly greater than the previous `voucher_number_to`.  With a reduction
period the windows can overlap (see the counterexample). -/
theorem voucher_windows_chain (c : Config) (vnf : Int) (fuel : Nat)
    (hred : c.reducing_period = none) :
    List.Chain' VnRel (generate_all c vnf fuel) ∧
      List.Chain'
        (fun a b => a.voucher_number_to < b.voucher_number_from)
        (generate_all c vnf fuel) := by
  have h := generate_loop_vn_chain c hred vnf fuel [] []
    (fun _ => rfl) (fun h2 => absurd rfl h2) List.chain'_nil
  exact ⟨h, h.imp fun a b hab => by dsimp only [VnRel] at hab; omega⟩

/-- Witness for C5 (amended): Scenario A has no reduction period; its full
sequence chains with `from = prev.to + 1`, checked here on the first two
records of the first cycle. -/
theorem voucher_windows_chain_witness :
    scenarioA.reducing_period = none ∧
      List.Chain' VnRel (generate_all scenarioA 1 3) ∧
      ((generate_all scenarioA 1 3).get? 0).map
          ArrivalRecord.voucher_number_to = some 61 ∧
      ((generate_all scenarioA 1 3).get? 1).map
          ArrivalRecord.voucher_number_from = some 62 :=
  ⟨rfl, (voucher_windows_chain scenarioA 1 3 rfl).1, by decide, by decide⟩

/-- **C8.** The generator is deterministic: two runs of the accumulation
loop — repeatedly calling `get_arrival` on the previous cycle until it
returns an empty list and concatenating all cycles — with identical
configurations and identical starting voucher numbers yield identical
record sequences (a two-run equality over the embedded function, which is
pure and threads all state through its explicit arguments). -/
theorem generator_deterministic (c1 c2 : Config) (v1 v2 : Int) (fuel : Nat)
    (hc : c1 = c2) (hv : v1 = v2) :
    generate_all c1 v1 fuel = generate_all c2 v2 fuel := by
  subst hc
  subst hv
  rfl

/-- Witness for C8: two runs on Scenario A agree. -/
theorem generator_deterministic_witness :
    scenarioA = scenarioA ∧ (1 : Int) = 1 ∧
      generate_all scenarioA 1 4 = generate_all scenarioA 1 4 :=
  ⟨rfl, rfl, generator_deterministic scenarioA scenarioA 1 1 4 rfl rfl⟩

end Vouchers
